import Mathlib

/-!
Shallow embedding of the repository's two scripts.

* The `SkillEcosystem` force-directed graph (the canvas visualization file):
  node and connection state, the per-frame physics step (`updatePhysics`),
  the hit test (`getNodeAtPosition`), the name-based connection resolution
  of `initializeSkills`, the mousemove drag handler and the resize handler.
* The ATS CV form-capture helper `setVal` from `ats-cv-tool/script.js`.

Numbers are modelled exactly.  The main model uses `ℚ` (the real-arithmetic
reading of JS doubles); a second model, the `j`-prefixed definitions below,
uses `Option ℚ` where `none` stands for the non-finite value `NaN`, in order
to reason about what the physics step does on the division `0 / 0` that
arises when two nodes occupy the same point.

`Math.sqrt` is modelled by `ratSqrt`, which is exact on rationals that are
squares of rationals.  Theorems whose content depends on the value of a
square root either carry an exactness hypothesis or are evaluated at inputs
whose squared distances are perfect squares, where `ratSqrt` agrees with the
real square root.
-/

/-! ## Definitions -/

/-- Model of `Math.sqrt` on exact rationals: exact whenever the argument is
the square of a rational (recognized through numerator and denominator of
the reduced fraction), and an integer-square-root approximation otherwise.
Every theorem that depends on its value is used only where it is exact. -/
def ratSqrt (q : ℚ) : ℚ :=
  if (Nat.sqrt q.num.toNat * Nat.sqrt q.num.toNat : ℤ) = q.num ∧
      Nat.sqrt q.den * Nat.sqrt q.den = q.den
  then (Nat.sqrt q.num.toNat : ℚ) / (Nat.sqrt q.den : ℚ)
  else (Nat.sqrt q.floor.toNat : ℚ)

/-- A node of the skill graph.  The source builds each node by spreading a
catalog entry over `{id, x, y, vx, vy, radius}`; only the fields read by the
physics, hit test and connection resolution are kept (`name` is the key used
by connection resolution). -/
structure Node where
  x : ℚ
  y : ℚ
  vx : ℚ
  vy : ℚ
  radius : ℚ
  name : String

/-- Default node used by the total list-indexing operation `List.getD`; the
source never indexes out of range, so this value never matters. -/
def defNode : Node := ⟨0, 0, 0, 0, 0, ""⟩

/-- A connection.  The source stores direct node references obtained from
`this.nodes.find(...)`, which may be `undefined`; references are modelled as
indices into the node list, a failed lookup as `none`. -/
structure Connection where
  fromIdx : Option Nat
  toIdx : Option Nat
  deriving DecidableEq

/-- The mutable instance state of `SkillEcosystem`: canvas geometry, the
physics constants set in the constructor, the node and connection lists, and
the dragged node (a reference in the source, an index here). -/
structure SimState where
  width : ℚ
  height : ℚ
  centerX : ℚ
  centerY : ℚ
  friction : ℚ
  repulsionStrength : ℚ
  attractionStrength : ℚ
  centerAttraction : ℚ
  minDistance : ℚ
  nodes : List Node
  connections : List Connection
  dragged : Option Nat

/-- Body of the repulsion loop of `updatePhysics` for one pair `(nodeA, nodeB)`:
`dx = nodeA.x - nodeB.x`, `dist = sqrt(dx*dx + dy*dy)`; if
`dist < minDistance * 3`, the contribution is
`(dx/dist * force, dy/dist * force)` with `force = repulsionStrength / (distSq + 1)`,
otherwise nothing is accumulated. -/
def repulsionFrom (repulsionStrength minDistance : ℚ) (nodeA nodeB : Node) : ℚ × ℚ :=
  let dx := nodeA.x - nodeB.x
  let dy := nodeA.y - nodeB.y
  let distSq := dx * dx + dy * dy
  let dist := ratSqrt distSq
  if dist < minDistance * 3 then
    let force := repulsionStrength / (distSq + 1)
    (dx / dist * force, dy / dist * force)
  else (0, 0)

/-- The full repulsion accumulation for node `i`: the inner
`for (let j ...)` loop with its `if (i === j) continue`. -/
def repulsionTotal (repulsionStrength minDistance : ℚ) (nodes : List Node) (i : Nat) : ℚ × ℚ :=
  (List.range nodes.length).foldl
    (fun f j =>
      if i = j then f
      else f + repulsionFrom repulsionStrength minDistance
        (nodes.getD i defNode) (nodes.getD j defNode))
    (0, 0)

/-- Endpoint resolution at the top of the `connections.forEach` body: the
other endpoint of `conn` as seen from node `i`, with the sign the source
attaches (`1` when `i` is the from endpoint, `-1` when it is the to
endpoint); `none` when `i` is not an endpoint or the other endpoint is
`undefined` (the `if (other)` truthiness test). -/
def connOther (conn : Connection) (i : Nat) : Option (Nat × ℚ) :=
  if conn.fromIdx = some i then conn.toIdx.map (fun j => (j, 1))
  else if conn.toIdx = some i then conn.fromIdx.map (fun j => (j, -1))
  else none

/-- Body of the `connections.forEach` loop of `updatePhysics` for node `i`
and one connection: contribute
`(dx/dist * force * sign, dy/dist * force * sign)` with
`force = (dist - 150) * attractionStrength` and `dx = other.x - nodeA.x`. -/
def attractionDelta (attractionStrength : ℚ) (nodes : List Node) (i : Nat)
    (conn : Connection) : ℚ × ℚ :=
  match connOther conn i with
  | none => (0, 0)
  | some (j, sign) =>
      let nodeA := nodes.getD i defNode
      let other := nodes.getD j defNode
      let dx := other.x - nodeA.x
      let dy := other.y - nodeA.y
      let dist := ratSqrt (dx * dx + dy * dy)
      let force := (dist - 150) * attractionStrength
      (dx / dist * force * sign, dy / dist * force * sign)

/-- The full spring-force accumulation for node `i` over all connections. -/
def attractionTotal (attractionStrength : ℚ) (conns : List Connection)
    (nodes : List Node) (i : Nat) : ℚ × ℚ :=
  conns.foldl (fun f c => f + attractionDelta attractionStrength nodes i c) (0, 0)

/-- The accumulated force on node `i` in one step: repulsion, then springs,
then the center pull `(centerX - x) * centerAttraction` (addition of the
three groups is reassociated relative to the source's running `fx += ...`,
which is exact in `ℚ`). -/
def forceOn (s : SimState) (nodes : List Node) (i : Nat) : ℚ × ℚ :=
  let nodeA := nodes.getD i defNode
  let fr := repulsionTotal s.repulsionStrength s.minDistance nodes i
  let fa := attractionTotal s.attractionStrength s.connections nodes i
  (fr.1 + fa.1 + (s.centerX - nodeA.x) * s.centerAttraction,
   fr.2 + fa.2 + (s.centerY - nodeA.y) * s.centerAttraction)

/-- The integration step: `vx = (vx + fx) * friction; x += vx` (same for y). -/
def integrateNode (friction : ℚ) (n : Node) (f : ℚ × ℚ) : Node :=
  let vx := (n.vx + f.1) * friction
  let vy := (n.vy + f.2) * friction
  { n with x := n.x + vx, y := n.y + vy, vx := vx, vy := vy }

/-- The soft boundary constraint: with `margin = radius + 10`, clamp each
axis to `[margin, dimension - margin]` and multiply the corresponding
velocity component by `-0.5` when the clamp fires. -/
def applyBounds (width height : ℚ) (n : Node) : Node :=
  let margin := n.radius + 10
  let px :=
    if n.x < margin then (margin, n.vx * (-(1/2)))
    else if n.x > width - margin then (width - margin, n.vx * (-(1/2)))
    else (n.x, n.vx)
  let py :=
    if n.y < margin then (margin, n.vy * (-(1/2)))
    else if n.y > height - margin then (height - margin, n.vy * (-(1/2)))
    else (n.y, n.vy)
  { n with x := px.1, vx := px.2, y := py.1, vy := py.2 }

/-- One iteration of the outer `for (let i ...)` loop of `updatePhysics`:
skip the dragged node, otherwise accumulate forces, integrate, clamp, and
write the node back in place (later iterations see this update, as in the
source's in-place mutation). -/
def stepIndex (s : SimState) (nodes : List Node) (i : Nat) : List Node :=
  if s.dragged = some i then nodes
  else
    nodes.set i
      (applyBounds s.width s.height
        (integrateNode s.friction (nodes.getD i defNode) (forceOn s nodes i)))

/-- The node list after one full `updatePhysics` pass. -/
def physicsNodes (s : SimState) : List Node :=
  (List.range s.nodes.length).foldl (stepIndex s) s.nodes

/-- One `updatePhysics` call: mutates only the node list. -/
def updatePhysics (s : SimState) : SimState :=
  { s with nodes := physicsNodes s }

/-- The reverse scan of `getNodeAtPosition`, parameterized by how many of the
leading nodes are still to be scanned: checks index `k-1` first. -/
def hitScan (nodes : List Node) (x y : ℚ) : Nat → Option Node
  | 0 => none
  | i + 1 =>
      let node := nodes.getD i defNode
      let dx := x - node.x
      let dy := y - node.y
      let dist := ratSqrt (dx * dx + dy * dy)
      if dist < node.radius then some node else hitScan nodes x y i

/-- `getNodeAtPosition(x, y)`: scan nodes from the last to the first and
return the first whose center is strictly within its radius of the point. -/
def getNodeAtPosition (nodes : List Node) (x y : ℚ) : Option Node :=
  hitScan nodes x y nodes.length

/-- Connection resolution in `initializeSkills`: each name pair is resolved
with `this.nodes.find(n => n.name === ...)`; a miss yields `undefined`
(modelled `none`).  The source performs no validation and reports no error. -/
def initializeConnections (nodes : List Node)
    (connectionMap : List (String × String)) : List Connection :=
  connectionMap.map (fun p =>
    { fromIdx := nodes.findIdx? (fun n => n.name == p.1)
      toIdx := nodes.findIdx? (fun n => n.name == p.2) })

/-- The mousemove handler: compute canvas coordinates from client coordinates
and the bounding rectangle; while a node is dragged, set its position to the
pointer and zero its velocity.  The non-dragging branch only schedules hover
detection on a timeout and mutates no node state, so it is the identity
here. -/
def onMouseMove (s : SimState) (clientX clientY rectLeft rectTop : ℚ) : SimState :=
  let mouseX := clientX - rectLeft
  let mouseY := clientY - rectTop
  match s.dragged with
  | some i =>
      let d := s.nodes.getD i defNode
      let d' := { d with x := mouseX, y := mouseY, vx := 0, vy := 0 }
      { s with nodes := s.nodes.set i d' }
  | none => s

/-- The per-node body of the resize handler's `forEach`:
`node.x = this.centerX + (node.x - this.centerX)` (same for y), with the
centers already recomputed by `setupCanvas`. -/
def resizeReposition (centerX centerY : ℚ) (n : Node) : Node :=
  { n with x := centerX + (n.x - centerX), y := centerY + (n.y - centerY) }

/-- The debounced resize handler: `setupCanvas` updates the dimensions and
centers, `scaleX`/`scaleY` are computed but never used, and every node is
reassigned through `resizeReposition`. -/
def onResize (s : SimState) (newWidth newHeight : ℚ) : SimState :=
  { s with
    width := newWidth
    height := newHeight
    centerX := newWidth / 2
    centerY := newHeight / 2
    nodes := s.nodes.map (resizeReposition (newWidth / 2) (newHeight / 2)) }

abbrev JNum := Option ℚ

def jofq (q : ℚ) : JNum := some q

def jadd : JNum → JNum → JNum
  | some a, some b => some (a + b)
  | _, _ => none

def jsub : JNum → JNum → JNum
  | some a, some b => some (a - b)
  | _, _ => none

def jmul : JNum → JNum → JNum
  | some a, some b => some (a * b)
  | _, _ => none

def jdiv : JNum → JNum → JNum
  | some a, some b => if b = 0 then none else some (a / b)
  | _, _ => none

def jsqrt : JNum → JNum
  | some a => if a < 0 then none else some (ratSqrt a)
  | none => none

def jlt (a b : JNum) : Bool :=
  match a, b with
  | some x, some y => decide (x < y)
  | _, _ => false

/-- Node of the JS-number model. -/
structure JNode where
  x : JNum
  y : JNum
  vx : JNum
  vy : JNum
  radius : JNum
  deriving DecidableEq

def jDefNode : JNode := ⟨some 0, some 0, some 0, some 0, some 0⟩

/-- Instance state of the JS-number model (constants are ordinary rationals:
the source never makes them non-finite). -/
structure JState where
  width : ℚ
  height : ℚ
  centerX : ℚ
  centerY : ℚ
  friction : ℚ
  repulsionStrength : ℚ
  attractionStrength : ℚ
  centerAttraction : ℚ
  minDistance : ℚ
  nodes : List JNode
  connections : List Connection
  dragged : Option Nat

/-- `repulsionFrom`, JS-number version. -/
def jRepulsionFrom (repulsionStrength minDistance : ℚ) (nodeA nodeB : JNode) : JNum × JNum :=
  let dx := jsub nodeA.x nodeB.x
  let dy := jsub nodeA.y nodeB.y
  let distSq := jadd (jmul dx dx) (jmul dy dy)
  let dist := jsqrt distSq
  if jlt dist (jofq (minDistance * 3)) then
    let force := jdiv (jofq repulsionStrength) (jadd distSq (jofq 1))
    (jmul (jdiv dx dist) force, jmul (jdiv dy dist) force)
  else (jofq 0, jofq 0)

/-- `repulsionTotal`, JS-number version. -/
def jRepulsionTotal (repulsionStrength minDistance : ℚ) (nodes : List JNode) (i : Nat) :
    JNum × JNum :=
  (List.range nodes.length).foldl
    (fun f j =>
      if i = j then f
      else
        let t := jRepulsionFrom repulsionStrength minDistance
          (nodes.getD i jDefNode) (nodes.getD j jDefNode)
        (jadd f.1 t.1, jadd f.2 t.2))
    (jofq 0, jofq 0)

/-- `attractionDelta`, JS-number version. -/
def jAttractionDelta (attractionStrength : ℚ) (nodes : List JNode) (i : Nat)
    (conn : Connection) : JNum × JNum :=
  match connOther conn i with
  | none => (jofq 0, jofq 0)
  | some (j, sign) =>
      let nodeA := nodes.getD i jDefNode
      let other := nodes.getD j jDefNode
      let dx := jsub other.x nodeA.x
      let dy := jsub other.y nodeA.y
      let dist := jsqrt (jadd (jmul dx dx) (jmul dy dy))
      let force := jmul (jsub dist (jofq 150)) (jofq attractionStrength)
      (jmul (jmul (jdiv dx dist) force) (jofq sign),
       jmul (jmul (jdiv dy dist) force) (jofq sign))

/-- `attractionTotal`, JS-number version. -/
def jAttractionTotal (attractionStrength : ℚ) (conns : List Connection)
    (nodes : List JNode) (i : Nat) : JNum × JNum :=
  conns.foldl
    (fun f c =>
      let t := jAttractionDelta attractionStrength nodes i c
      (jadd f.1 t.1, jadd f.2 t.2))
    (jofq 0, jofq 0)

/-- `forceOn`, JS-number version. -/
def jForceOn (s : JState) (nodes : List JNode) (i : Nat) : JNum × JNum :=
  let nodeA := nodes.getD i jDefNode
  let fr := jRepulsionTotal s.repulsionStrength s.minDistance nodes i
  let fa := jAttractionTotal s.attractionStrength s.connections nodes i
  (jadd (jadd fr.1 fa.1) (jmul (jsub (jofq s.centerX) nodeA.x) (jofq s.centerAttraction)),
   jadd (jadd fr.2 fa.2) (jmul (jsub (jofq s.centerY) nodeA.y) (jofq s.centerAttraction)))

/-- `integrateNode`, JS-number version. -/
def jIntegrateNode (friction : ℚ) (n : JNode) (f : JNum × JNum) : JNode :=
  let vx := jmul (jadd n.vx f.1) (jofq friction)
  let vy := jmul (jadd n.vy f.2) (jofq friction)
  { n with x := jadd n.x vx, y := jadd n.y vy, vx := vx, vy := vy }

/-- `applyBounds`, JS-number version (a `NaN` coordinate fails both clamp
comparisons and passes through unchanged, exactly as in JS). -/
def jApplyBounds (width height : ℚ) (n : JNode) : JNode :=
  let margin := jadd n.radius (jofq 10)
  let px :=
    if jlt n.x margin then (margin, jmul n.vx (jofq (-(1/2))))
    else if jlt (jsub (jofq width) margin) n.x then
      (jsub (jofq width) margin, jmul n.vx (jofq (-(1/2))))
    else (n.x, n.vx)
  let py :=
    if jlt n.y margin then (margin, jmul n.vy (jofq (-(1/2))))
    else if jlt (jsub (jofq height) margin) n.y then
      (jsub (jofq height) margin, jmul n.vy (jofq (-(1/2))))
    else (n.y, n.vy)
  { n with x := px.1, vx := px.2, y := py.1, vy := py.2 }

/-- `stepIndex`, JS-number version. -/
def jStepIndex (s : JState) (nodes : List JNode) (i : Nat) : List JNode :=
  if s.dragged = some i then nodes
  else
    nodes.set i
      (jApplyBounds s.width s.height
        (jIntegrateNode s.friction (nodes.getD i jDefNode) (jForceOn s nodes i)))

/-- `physicsNodes`, JS-number version. -/
def jPhysicsNodes (s : JState) : List JNode :=
  (List.range s.nodes.length).foldl (jStepIndex s) s.nodes

/-- `updatePhysics`, JS-number version. -/
def jUpdatePhysics (s : JState) : JState :=
  { s with nodes := jPhysicsNodes s }

/-- The whitespace characters stripped by `String.prototype.trim` (ASCII
part; the Unicode space classes never occur in the inputs considered). -/
def jsWhitespaceChar (c : Char) : Bool :=
  c = ' ' || c = '\t' || c = '\n' || c = '\r' || c = '\x0b' || c = '\x0c'

/-- `String.prototype.trim`: strip whitespace from both ends. -/
def jsTrim (s : String) : String :=
  String.mk (((s.data.dropWhile jsWhitespaceChar).reverse.dropWhile jsWhitespaceChar).reverse)

/-- An output DOM element as far as `setVal` touches it. -/
structure OutputEl where
  innerText : String
  display : String

/-- The JS string `||` operator restricted to strings: the left operand
unless it is falsy (empty). -/
def jsOrDefault (a b : String) : String :=
  if a = "" then b else a

/-- `setVal(inputId, outputId, defaultText)` from `ats-cv-tool/script.js`,
with the two DOM lookups replaced by the input value and the output element:
if the trimmed input is non-empty, write the input value and show the
element; otherwise write `defaultText || ""`. -/
def setVal (inputVal defaultText : String) (out : OutputEl) : OutputEl :=
  if jsTrim inputVal ≠ "" then { out with innerText := inputVal, display := "block" }
  else { out with innerText := jsOrDefault defaultText "" }

/-- A two-node catalog in the style of the source's skill list. -/
def demoCatalogNodes : List Node :=
  [{ x := 100, y := 100, vx := 0, vy := 0, radius := 30, name := "Python" },
   { x := 300, y := 200, vx := 0, vy := 0, radius := 30, name := "Data Analysis" }]

/-- Two connected nodes 300 apart on the x axis: node 0 (the `from`
endpoint) at the origin, node 1 (the `to` endpoint) at `(300, 0)`. -/
def c1Nodes : List Node :=
  [{ x := 0, y := 0, vx := 0, vy := 0, radius := 30, name := "A" },
   { x := 300, y := 0, vx := 0, vy := 0, radius := 30, name := "B" }]

def c1Conns : List Connection := [{ fromIdx := some 0, toIdx := some 1 }]

/-- The point `(x, y)` lies strictly within `n.radius` of the center of `n`. -/
def inDisc (x y : ℚ) (n : Node) : Prop :=
  (x - n.x) * (x - n.x) + (y - n.y) * (y - n.y) < n.radius * n.radius

/-- The squared distance from `(x, y)` to `n` is a perfect square, so the
model square root is exact there. -/
def SqrtExact (x y : ℚ) (n : Node) : Prop :=
  ratSqrt ((x - n.x) * (x - n.x) + (y - n.y) * (y - n.y)) *
    ratSqrt ((x - n.x) * (x - n.x) + (y - n.y) * (y - n.y)) =
  (x - n.x) * (x - n.x) + (y - n.y) * (y - n.y)

/-- Two overlapping nodes for the C7 witness: both contain the query point
`(0, 0)`. -/
def c7Nodes : List Node :=
  [{ x := 0, y := 0, vx := 0, vy := 0, radius := 30, name := "A" },
   { x := 10, y := 0, vx := 0, vy := 0, radius := 30, name := "B" }]

/-- Position within `[radius+10, dimension-(radius+10)]` on both axes. -/
def inBounds (width height : ℚ) (n : Node) : Prop :=
  n.radius + 10 ≤ n.x ∧ n.x ≤ width - (n.radius + 10) ∧
  n.radius + 10 ≤ n.y ∧ n.y ≤ height - (n.radius + 10)

/-- Concrete state for the C8 witness: a single node out of bounds on both
axes. -/
def c8State : SimState :=
  { width := 800, height := 600, centerX := 400, centerY := 300,
    friction := 17/20, repulsionStrength := 8000, attractionStrength := 1/1000,
    centerAttraction := 1/500, minDistance := 100,
    nodes := [{ x := -50, y := 1000, vx := 4, vy := 6, radius := 30, name := "A" }],
    connections := [], dragged := none }

/-- A node sitting at `(100, 100)` at rest. -/
def c3N : JNode := ⟨some 100, some 100, some 0, some 0, some 30⟩

/-- The C3 state: two nodes at exactly the same point, no connections, no
drag, default constants. -/
def c3State : JState :=
  { width := 800, height := 600, centerX := 400, centerY := 300,
    friction := 17/20, repulsionStrength := 8000, attractionStrength := 1/1000,
    centerAttraction := 1/500, minDistance := 100,
    nodes := [c3N, c3N], connections := [], dragged := none }

/-- Squared distance from a node to the point `(cx, cy)`. -/
def sqDistToCenter (n : Node) (cx cy : ℚ) : ℚ := (n.x - cx)^2 + (n.y - cy)^2

/-- The per-node induction invariant for the center-only configuration: the
node is in bounds and each velocity component is a small restoring multiple
of the displacement from the center. -/
def NodeInv (w h : ℚ) (n : Node) : Prop :=
  inBounds w h n ∧
  (∃ t : ℚ, 0 ≤ t ∧ t ≤ 1/10 ∧ n.vx = -(t * (n.x - w/2))) ∧
  (∃ t : ℚ, 0 ≤ t ∧ t ≤ 1/10 ∧ n.vy = -(t * (n.y - h/2)))

/-- The configuration of the C9 scenario: no connections, zero repulsion,
default friction `0.85` and center attraction `0.002`, centers at half the
dimensions, no drag, and every node satisfying the invariant. -/
def GoodState (s : SimState) : Prop :=
  s.connections = [] ∧ s.repulsionStrength = 0 ∧ s.friction = 17/20 ∧
  s.centerAttraction = 1/500 ∧ s.centerX = s.width / 2 ∧ s.centerY = s.height / 2 ∧
  s.dragged = none ∧ ∀ n ∈ s.nodes, NodeInv s.width s.height n

/-- Concrete state for the C9 witness: one node at rest, off center, in
bounds, in the zero-connection zero-repulsion configuration. -/
def c9State : SimState :=
  { width := 800, height := 600, centerX := 400, centerY := 300,
    friction := 17/20, repulsionStrength := 0, attractionStrength := 1/1000,
    centerAttraction := 1/500, minDistance := 100,
    nodes := [{ x := 550, y := 200, vx := 0, vy := 0, radius := 30, name := "Python" }],
    connections := [], dragged := none }

/-! ## Theorems -/

theorem ratSqrt_nonneg (q : ℚ) : 0 ≤ ratSqrt q := by
  unfold ratSqrt
  split_ifs
  · positivity
  · positivity

theorem ratSqrt_natCast_sq (n : ℕ) : ratSqrt ((n : ℚ) * (n : ℚ)) = (n : ℚ) := by
  have hq : ((n : ℚ) * (n : ℚ)) = ((n * n : ℕ) : ℚ) := by push_cast; ring
  rw [hq]
  unfold ratSqrt
  rw [Rat.num_natCast, Rat.den_natCast]
  have h1 : ((n * n : ℕ) : ℤ).toNat = n * n := Int.toNat_natCast _
  rw [h1, Nat.sqrt_eq, Nat.sqrt_one]
  simp

theorem getD_set_self (l : List Node) (i : Nat) (a : Node) (hi : i < l.length) :
    (l.set i a).getD i defNode = a := by
  rw [List.getD_eq_getElem?_getD, List.getElem?_set_self hi]
  rfl

theorem getD_set_ne (l : List Node) (i k : Nat) (a : Node) (h : i ≠ k) :
    (l.set i a).getD k defNode = l.getD k defNode := by
  rw [List.getD_eq_getElem?_getD, List.getElem?_set_ne h, ← List.getD_eq_getElem?_getD]

theorem length_stepIndex (s : SimState) (nodes : List Node) (i : Nat) :
    (stepIndex s nodes i).length = nodes.length := by
  unfold stepIndex
  split_ifs
  · rfl
  · exact List.length_set nodes i _

theorem length_foldl_stepIndex (s : SimState) (l : List Nat) (acc : List Node) :
    (l.foldl (stepIndex s) acc).length = acc.length := by
  induction l generalizing acc with
  | nil => rfl
  | cons j t ih => rw [List.foldl_cons, ih, length_stepIndex]

theorem getD_stepIndex_ne (s : SimState) (nodes : List Node) (i k : Nat) (h : k ≠ i) :
    (stepIndex s nodes i).getD k defNode = nodes.getD k defNode := by
  unfold stepIndex
  split_ifs
  · rfl
  · exact getD_set_ne nodes i k _ (Ne.symm h)

theorem getD_foldl_stepIndex_not_mem (s : SimState) (l : List Nat) (acc : List Node)
    (k : Nat) (h : k ∉ l) :
    (l.foldl (stepIndex s) acc).getD k defNode = acc.getD k defNode := by
  induction l generalizing acc with
  | nil => rfl
  | cons j t ih =>
      rw [List.foldl_cons, ih _ (fun hm => h (List.mem_cons_of_mem _ hm)),
        getD_stepIndex_ne s acc j k (fun he => h (he ▸ List.mem_cons_self j t))]

theorem length_physicsNodes (s : SimState) : (physicsNodes s).length = s.nodes.length :=
  length_foldl_stepIndex s _ _

/-- The value of node `k` after one full pass: the clamp applied to the
integration of the original node `k` under the forces computed against the
partially updated list (`mid` below), exactly the source's in-place loop. -/
theorem physicsNodes_getD (s : SimState) (k : Nat) (hk : k < s.nodes.length)
    (hd : s.dragged ≠ some k) :
    (physicsNodes s).getD k defNode =
      applyBounds s.width s.height
        (integrateNode s.friction (s.nodes.getD k defNode)
          (forceOn s ((List.range k).foldl (stepIndex s) s.nodes) k)) := by
  have hsplit : List.range s.nodes.length =
      (List.range k ++ [k]) ++ List.map (fun x => (k + 1) + x) (List.range (s.nodes.length - (k + 1))) := by
    rw [← List.range_succ, ← List.range_add]
    congr 1
    omega
  unfold physicsNodes
  rw [hsplit, List.foldl_append, List.foldl_append]
  set mid := (List.range k).foldl (stepIndex s) s.nodes with hmid
  have hmidlen : mid.length = s.nodes.length := length_foldl_stepIndex s _ _
  have hmidk : mid.getD k defNode = s.nodes.getD k defNode := by
    exact getD_foldl_stepIndex_not_mem s _ _ k (by simp [List.mem_range])
  have hstep : List.foldl (stepIndex s) mid [k] =
      mid.set k (applyBounds s.width s.height
        (integrateNode s.friction (mid.getD k defNode) (forceOn s mid k))) := by
    simp only [List.foldl_cons, List.foldl_nil]
    unfold stepIndex
    rw [if_neg hd]
  rw [hstep]
  rw [getD_foldl_stepIndex_not_mem s _ _ k (by
    intro hm
    rcases List.mem_map.mp hm with ⟨x, _, hx⟩
    omega)]
  rw [getD_set_self _ _ _ (by rw [hmidlen]; exact hk), hmidk]

/-- C4: processing a container-resize event leaves every node's absolute x
and y coordinates exactly unchanged — the handler recomputes the canvas
geometry and the scale factors, but reassigns each node to
`centerX + (x - centerX)`, which is its existing coordinate. -/
theorem resize_preserves_positions (s : SimState) (newWidth newHeight : ℚ) :
    (onResize s newWidth newHeight).nodes = s.nodes := by
  show s.nodes.map (resizeReposition (newWidth / 2) (newHeight / 2)) = s.nodes
  have h : resizeReposition (newWidth / 2) (newHeight / 2) = id := by
    funext n
    unfold resizeReposition
    cases n
    simp only [Node.mk.injEq, id]
    refine ⟨by ring, by ring, trivial, trivial, trivial, trivial⟩
  rw [h, List.map_id]

/-- C6: while node `i` is the dragged node, a mousemove event sets its
position to the supplied pointer coordinates (client coordinates minus the
canvas rectangle offset) and zeroes both velocity components, for any prior
position, velocity and force accumulation. -/
theorem drag_move_pins_node (s : SimState) (clientX clientY rectLeft rectTop : ℚ)
    (i : Nat) (hd : s.dragged = some i) (hi : i < s.nodes.length) :
    ((onMouseMove s clientX clientY rectLeft rectTop).nodes.getD i defNode).x
        = clientX - rectLeft ∧
    ((onMouseMove s clientX clientY rectLeft rectTop).nodes.getD i defNode).y
        = clientY - rectTop ∧
    ((onMouseMove s clientX clientY rectLeft rectTop).nodes.getD i defNode).vx = 0 ∧
    ((onMouseMove s clientX clientY rectLeft rectTop).nodes.getD i defNode).vy = 0 := by
  unfold onMouseMove
  rw [hd]
  simp only
  rw [getD_set_self _ _ _ hi]
  exact ⟨rfl, rfl, rfl, rfl⟩

/-- Witness for C6 at a concrete dragging state. -/
theorem drag_move_pins_node_witness :
    let s : SimState :=
      { width := 800, height := 600, centerX := 400, centerY := 300,
        friction := 17/20, repulsionStrength := 8000, attractionStrength := 1/1000,
        centerAttraction := 1/500, minDistance := 100,
        nodes := [{ x := 50, y := 60, vx := 3, vy := -4, radius := 30, name := "Python" }],
        connections := [], dragged := some 0 }
    ((onMouseMove s 220 130 20 30).nodes.getD 0 defNode).x = 200 ∧
    ((onMouseMove s 220 130 20 30).nodes.getD 0 defNode).y = 100 ∧
    ((onMouseMove s 220 130 20 30).nodes.getD 0 defNode).vx = 0 ∧
    ((onMouseMove s 220 130 20 30).nodes.getD 0 defNode).vy = 0 := by
  intro s
  have h := drag_move_pins_node s 220 130 20 30 0 rfl (by simp [s])
  refine ⟨?_, ?_, h.2.2.1, h.2.2.2⟩
  · rw [h.1]; norm_num
  · rw [h.2.1]; norm_num

theorem ratSqrt_val_0 : ratSqrt (0 : ℚ) = 0 := by
  have h : (0 : ℚ) = ((0 : ℕ) : ℚ) * ((0 : ℕ) : ℚ) := by norm_num
  rw [h, ratSqrt_natCast_sq]
  norm_num

theorem ratSqrt_val_100 : ratSqrt (100 : ℚ) = 10 := by
  have h : (100 : ℚ) = ((10 : ℕ) : ℚ) * ((10 : ℕ) : ℚ) := by norm_num
  rw [h, ratSqrt_natCast_sq]
  norm_num

theorem ratSqrt_val_10000 : ratSqrt (10000 : ℚ) = 100 := by
  have h : (10000 : ℚ) = ((100 : ℕ) : ℚ) * ((100 : ℕ) : ℚ) := by norm_num
  rw [h, ratSqrt_natCast_sq]
  norm_num

theorem ratSqrt_val_90000 : ratSqrt (90000 : ℚ) = 300 := by
  have h : (90000 : ℚ) = ((300 : ℕ) : ℚ) * ((300 : ℕ) : ℚ) := by norm_num
  rw [h, ratSqrt_natCast_sq]
  norm_num

/-- C2 (evaluation at the failing input): resolving a connection list that
names a skill absent from the catalog is not rejected — `initializeSkills`
constructs an edge whose endpoint is missing (`undefined` in the source,
`none` here) and initialization continues; the source has no validation and
no error channel, contradicting the required fail-fast configuration
error. -/
theorem missing_skill_not_rejected :
    initializeConnections demoCatalogNodes [("Python", "Rust")] =
      [{ fromIdx := some 0, toIdx := none }] := by
  decide

theorem jsTrim_eq_empty_iff (s : String) :
    jsTrim s = "" ↔ ∀ c ∈ s.data, jsWhitespaceChar c = true := by
  unfold jsTrim
  rw [String.ext_iff]
  show ((s.data.dropWhile jsWhitespaceChar).reverse.dropWhile jsWhitespaceChar).reverse = [] ↔ _
  rw [List.reverse_eq_nil_iff, List.dropWhile_eq_nil_iff]
  constructor
  · intro h c hc
    rcases List.mem_append.mp
        ((List.takeWhile_append_dropWhile jsWhitespaceChar s.data) ▸ hc) with h1 | h1
    · exact List.mem_takeWhile_imp h1
    · exact h c (List.mem_reverse.mpr h1)
  · intro h c hc
    exact h c ((List.dropWhile_sublist jsWhitespaceChar).subset (List.mem_reverse.mp hc))

/-- C10: one `setVal` update writes the input value into the output field
exactly when the trimmed input is non-empty, and writes the placeholder
default text when the input is empty or whitespace-only (first conjunct:
the trimmed value is empty exactly when every character is whitespace). -/
theorem setVal_input_or_default (inputVal defaultText : String) (out : OutputEl) :
    (jsTrim inputVal = "" ↔ ∀ c ∈ inputVal.data, jsWhitespaceChar c = true) ∧
    (jsTrim inputVal ≠ "" → (setVal inputVal defaultText out).innerText = inputVal) ∧
    (jsTrim inputVal = "" → (setVal inputVal defaultText out).innerText = defaultText) := by
  refine ⟨jsTrim_eq_empty_iff inputVal, ?_, ?_⟩
  · intro h
    unfold setVal
    rw [if_pos h]
  · intro h
    unfold setVal
    rw [if_neg (not_not_intro h)]
    show jsOrDefault defaultText "" = defaultText
    unfold jsOrDefault
    split_ifs with h2
    · rw [h2]
    · rfl

/-- Witness for C10: a non-blank input is copied through verbatim, a
whitespace-only input is replaced by the default text. -/
theorem setVal_input_or_default_witness :
    (setVal "  Umut  " "AD SOYAD" ⟨"", "block"⟩).innerText = "  Umut  " ∧
    (setVal "   " "AD SOYAD" ⟨"", "block"⟩).innerText = "AD SOYAD" := by
  constructor
  · exact (setVal_input_or_default "  Umut  " "AD SOYAD" ⟨"", "block"⟩).2.1 (by decide)
  · exact (setVal_input_or_default "   " "AD SOYAD" ⟨"", "block"⟩).2.2 (by decide)

/-- C1 (evaluation at the failing input): with the stretched edge above
(distance 300, target 150, strength 1/1000), the spring accumulation gives
the `from` node the force `(3/20, 0)` — magnitude `(300-150)/1000`, toward
the other endpoint — but gives the `to` node the very same vector `(3/20, 0)`,
which points away from its other endpoint at the origin: the `sign = -1`
branch negates a displacement that is already recomputed relative to the
current node.  The last two conjuncts state the directions: the force on
node 0 has positive inner product with the direction toward its other
endpoint, the force on node 1 a negative one. -/
theorem attraction_to_endpoint_flipped :
    attractionTotal (1/1000) c1Conns c1Nodes 0 = (3/20, 0) ∧
    attractionTotal (1/1000) c1Conns c1Nodes 1 = (3/20, 0) ∧
    0 < (attractionTotal (1/1000) c1Conns c1Nodes 0).1 *
        ((c1Nodes.getD 1 defNode).x - (c1Nodes.getD 0 defNode).x) ∧
    (attractionTotal (1/1000) c1Conns c1Nodes 1).1 *
        ((c1Nodes.getD 0 defNode).x - (c1Nodes.getD 1 defNode).x) < 0 := by
  have e0 : c1Nodes.getD 0 defNode =
      { x := 0, y := 0, vx := 0, vy := 0, radius := 30, name := "A" } := rfl
  have e1 : c1Nodes.getD 1 defNode =
      { x := 300, y := 0, vx := 0, vy := 0, radius := 30, name := "B" } := rfl
  have h0 : attractionTotal (1/1000) c1Conns c1Nodes 0 = (3/20, 0) := by
    have hco : connOther { fromIdx := some 0, toIdx := some 1 } 0 = some (1, 1) := rfl
    have hd : attractionDelta (1/1000) c1Nodes 0 { fromIdx := some 0, toIdx := some 1 }
        = (3/20, 0) := by
      unfold attractionDelta
      rw [hco]
      dsimp only
      rw [e0, e1]
      norm_num [ratSqrt_val_90000]
    show List.foldl _ (0, 0) c1Conns = _
    rw [show c1Conns = [{ fromIdx := some 0, toIdx := some 1 }] from rfl,
      List.foldl_cons, List.foldl_nil, hd]
    norm_num
  have h1 : attractionTotal (1/1000) c1Conns c1Nodes 1 = (3/20, 0) := by
    have hco : connOther { fromIdx := some 0, toIdx := some 1 } 1 = some (0, -1) := rfl
    have hd : attractionDelta (1/1000) c1Nodes 1 { fromIdx := some 0, toIdx := some 1 }
        = (3/20, 0) := by
      unfold attractionDelta
      rw [hco]
      dsimp only
      rw [e0, e1]
      norm_num [ratSqrt_val_90000]
    show List.foldl _ (0, 0) c1Conns = _
    rw [show c1Conns = [{ fromIdx := some 0, toIdx := some 1 }] from rfl,
      List.foldl_cons, List.foldl_nil, hd]
    norm_num
  refine ⟨h0, h1, ?_, ?_⟩
  · rw [h0, e0, e1]
    norm_num
  · rw [h1, e0, e1]
    norm_num

theorem foldl_add_eq_sum (t : Nat → ℚ × ℚ) (l : List Nat) (acc : ℚ × ℚ) :
    l.foldl (fun f j => f + t j) acc = acc + (l.map t).sum := by
  induction l generalizing acc with
  | nil => simp
  | cons j tl ih => rw [List.foldl_cons, ih, List.map_cons, List.sum_cons, add_assoc]

theorem repulsionTotal_eq_sum (R minD : ℚ) (nodes : List Node) (i : Nat) :
    repulsionTotal R minD nodes i =
      ((List.range nodes.length).map (fun j =>
        if i = j then 0
        else repulsionFrom R minD (nodes.getD i defNode) (nodes.getD j defNode))).sum := by
  unfold repulsionTotal
  have h : (fun (f : ℚ × ℚ) j =>
      if i = j then f
      else f + repulsionFrom R minD (nodes.getD i defNode) (nodes.getD j defNode)) =
      (fun f j => f + (if i = j then 0
        else repulsionFrom R minD (nodes.getD i defNode) (nodes.getD j defNode))) := by
    funext f j
    split_ifs <;> simp
  rw [h, foldl_add_eq_sum, Prod.mk_zero_zero, zero_add]

/-- C5: when the distance `d` between nodes `a` and `b` is exactly
representable (`hex`, `hsq`), the repulsion contribution of `b` on `a` is
`R / (d² + 1)` times the unit vector from `b` to `a` exactly when
`d < 3 × minDistance`, is zero otherwise, and the step's accumulated
repulsion on a node is the sum of these contributions over all other
nodes. -/
theorem repulsion_pair_spec (R minD : ℚ) (a b : Node) (d : ℚ)
    (hex : ratSqrt ((a.x - b.x) * (a.x - b.x) + (a.y - b.y) * (a.y - b.y)) = d)
    (hsq : d * d = (a.x - b.x) * (a.x - b.x) + (a.y - b.y) * (a.y - b.y)) :
    (d ≠ 0 → d < 3 * minD → repulsionFrom R minD a b =
        (R / (d * d + 1) * ((a.x - b.x) / d), R / (d * d + 1) * ((a.y - b.y) / d))) ∧
    (¬ d < 3 * minD → repulsionFrom R minD a b = (0, 0)) ∧
    (∀ (nodes : List Node) (i : Nat),
      repulsionTotal R minD nodes i =
        ((List.range nodes.length).map (fun j =>
          if i = j then 0
          else repulsionFrom R minD (nodes.getD i defNode) (nodes.getD j defNode))).sum) := by
  refine ⟨?_, ?_, fun nodes i => repulsionTotal_eq_sum R minD nodes i⟩
  · intro _ hlt
    simp only [repulsionFrom]
    rw [hex, if_pos (by rw [mul_comm]; exact hlt), ← hsq]
    simp only [Prod.mk.injEq]
    constructor <;> ring
  · intro hlt
    simp only [repulsionFrom]
    rw [hex, if_neg (by rw [mul_comm minD 3]; exact hlt)]

/-- Witness for C5 at two nodes a 3-4-5 distance 100 apart (inside the
cutoff `300`). -/
theorem repulsion_pair_spec_witness :
    repulsionFrom 8000 100
        { x := 400, y := 300, vx := 0, vy := 0, radius := 30, name := "A" }
        { x := 340, y := 220, vx := 0, vy := 0, radius := 30, name := "B" } =
      (8000 / (100 * 100 + 1) * ((400 - 340) / 100),
       8000 / (100 * 100 + 1) * ((300 - 220) / 100)) := by
  have hex : ratSqrt ((400 - 340 : ℚ) * (400 - 340) + (300 - 220) * (300 - 220)) = 100 := by
    have h : ((400 - 340 : ℚ) * (400 - 340) + (300 - 220) * (300 - 220)) = 10000 := by norm_num
    rw [h, ratSqrt_val_10000]
  have h := repulsion_pair_spec 8000 100
    { x := 400, y := 300, vx := 0, vy := 0, radius := 30, name := "A" }
    { x := 340, y := 220, vx := 0, vy := 0, radius := 30, name := "B" }
    100 hex (by norm_num)
  exact h.1 (by norm_num) (by norm_num)

theorem hit_cond_iff_inDisc (x y : ℚ) (n : Node) (hex : SqrtExact x y n)
    (hr : 0 ≤ n.radius) :
    (ratSqrt ((x - n.x) * (x - n.x) + (y - n.y) * (y - n.y)) < n.radius) ↔ inDisc x y n := by
  unfold SqrtExact at hex
  unfold inDisc
  constructor
  · intro h
    rw [← hex]
    exact mul_self_lt_mul_self (ratSqrt_nonneg _) h
  · intro h
    by_contra hc
    push_neg at hc
    have h2 := mul_self_le_mul_self hr hc
    rw [hex] at h2
    exact absurd h (not_lt.mpr h2)

theorem hitScan_none_iff (nodes : List Node) (x y : ℚ)
    (hex : ∀ n ∈ nodes, SqrtExact x y n) (hr : ∀ n ∈ nodes, 0 ≤ n.radius)
    (k : Nat) (hk : k ≤ nodes.length) :
    (hitScan nodes x y k = none ↔ ∀ i, i < k → ¬ inDisc x y (nodes.getD i defNode)) := by
  induction k with
  | zero => simp [hitScan]
  | succ m ih =>
      have hm : m < nodes.length := Nat.lt_of_succ_le hk
      have hmem : nodes.getD m defNode ∈ nodes := by
        rw [List.getD_eq_getElem _ _ hm]
        exact List.getElem_mem hm
      have hcond := hit_cond_iff_inDisc x y (nodes.getD m defNode) (hex _ hmem) (hr _ hmem)
      simp only [hitScan]
      by_cases hd : inDisc x y (nodes.getD m defNode)
      · rw [if_pos (hcond.mpr hd)]
        constructor
        · intro h
          exact absurd h (by simp)
        · intro hall
          exact absurd hd (hall m (Nat.lt_succ_self m))
      · rw [if_neg (fun hc => hd (hcond.mp hc)), ih (Nat.le_of_succ_le hk)]
        constructor
        · intro h i hi
          rcases Nat.lt_succ_iff_lt_or_eq.mp hi with h1 | h1
          · exact h i h1
          · rw [h1]
            exact hd
        · intro h i hi
          exact h i (Nat.lt_succ_of_lt hi)

theorem hitScan_topmost (nodes : List Node) (x y : ℚ)
    (hex : ∀ n ∈ nodes, SqrtExact x y n) (hr : ∀ n ∈ nodes, 0 ≤ n.radius)
    (k : Nat) :
    k ≤ nodes.length → ∀ i, i < k → inDisc x y (nodes.getD i defNode) →
      (∀ j, i < j → j < k → ¬ inDisc x y (nodes.getD j defNode)) →
      hitScan nodes x y k = some (nodes.getD i defNode) := by
  induction k with
  | zero =>
      intro _ i hi
      exact fun _ _ => absurd hi (Nat.not_lt_zero i)
  | succ m ih =>
      intro hk i hi hdisc htop
      have hm : m < nodes.length := Nat.lt_of_succ_le hk
      have hmem : nodes.getD m defNode ∈ nodes := by
        rw [List.getD_eq_getElem _ _ hm]
        exact List.getElem_mem hm
      have hcond := hit_cond_iff_inDisc x y (nodes.getD m defNode) (hex _ hmem) (hr _ hmem)
      rcases Nat.lt_succ_iff_lt_or_eq.mp hi with h1 | h1
      · have hnd : ¬ inDisc x y (nodes.getD m defNode) := htop m h1 (Nat.lt_succ_self m)
        simp only [hitScan]
        rw [if_neg (fun hc => hnd (hcond.mp hc))]
        exact ih (Nat.le_of_lt hm) i h1 hdisc (fun j hj1 hj2 => htop j hj1 (Nat.lt_succ_of_lt hj2))
      · rw [h1]
        rw [h1] at hdisc
        simp only [hitScan]
        rw [if_pos (hcond.mpr hdisc)]

/-- C7: where the model square root is exact, `getNodeAtPosition` returns
`none` exactly when no node's center lies within its radius of the query
point, and otherwise returns the node with the highest insertion index among
those whose center lies within its radius of the point (so with two
overlapping hit nodes, the later-inserted one). -/
theorem hit_test_topmost (nodes : List Node) (x y : ℚ)
    (hex : ∀ n ∈ nodes, SqrtExact x y n) (hr : ∀ n ∈ nodes, 0 ≤ n.radius) :
    (getNodeAtPosition nodes x y = none ↔
      ∀ i, i < nodes.length → ¬ inDisc x y (nodes.getD i defNode)) ∧
    (∀ i, i < nodes.length → inDisc x y (nodes.getD i defNode) →
      (∀ j, i < j → j < nodes.length → ¬ inDisc x y (nodes.getD j defNode)) →
      getNodeAtPosition nodes x y = some (nodes.getD i defNode)) := by
  constructor
  · exact hitScan_none_iff nodes x y hex hr nodes.length (le_refl _)
  · intro i hi hdisc htop
    exact hitScan_topmost nodes x y hex hr nodes.length (le_refl _) i hi hdisc htop

/-- Witness for C7: with both overlapping nodes under the pointer, the hit
test returns the later-inserted node. -/
theorem hit_test_topmost_witness :
    getNodeAtPosition c7Nodes 0 0 =
      some { x := 10, y := 0, vx := 0, vy := 0, radius := 30, name := "B" } := by
  have e1 : c7Nodes.getD 1 defNode =
      { x := 10, y := 0, vx := 0, vy := 0, radius := 30, name := "B" } := rfl
  have hex : ∀ n ∈ c7Nodes, SqrtExact 0 0 n := by
    intro n hn
    simp only [c7Nodes, List.mem_cons, List.not_mem_nil, or_false] at hn
    rcases hn with h | h <;> rw [h] <;> unfold SqrtExact <;> norm_num
    · exact ratSqrt_val_0
    · rw [ratSqrt_val_100]
      norm_num
  have hr : ∀ n ∈ c7Nodes, 0 ≤ n.radius := by
    intro n hn
    simp only [c7Nodes, List.mem_cons, List.not_mem_nil, or_false] at hn
    rcases hn with h | h <;> rw [h] <;> norm_num
  have h := (hit_test_topmost c7Nodes 0 0 hex hr).2 1 (by norm_num [c7Nodes])
    (by rw [e1]; unfold inDisc; norm_num)
    (fun j hj1 hj2 => by
      exfalso
      simp only [c7Nodes, List.length_cons, List.length_nil] at hj2
      omega)
  rw [e1] at h
  exact h

theorem applyBounds_inBounds (w hgt : ℚ) (n : Node)
    (hw : 2 * (n.radius + 10) ≤ w) (hh : 2 * (n.radius + 10) ≤ hgt) :
    inBounds w hgt (applyBounds w hgt n) := by
  unfold applyBounds inBounds
  dsimp only
  split_ifs <;>
    exact ⟨by linarith, by linarith, by linarith, by linarith⟩

theorem applyBounds_eq_of_inBounds (w hgt : ℚ) (n : Node) (hn : inBounds w hgt n) :
    applyBounds w hgt n = n := by
  obtain ⟨h1, h2, h3, h4⟩ := hn
  unfold applyBounds
  dsimp only
  rw [if_neg (not_lt.mpr h1), if_neg (not_lt.mpr h2), if_neg (not_lt.mpr h3),
    if_neg (not_lt.mpr h4)]

/-- C8: after one `updatePhysics` step, every non-dragged node's position
lies within `[radius+10, dimension-(radius+10)]` on each axis (for a
container at least `2*(radius+10)` in each dimension), and the clamp stage
that produces it replaces the velocity component of a clamped axis by `-0.5`
times its value while leaving the other axis's components untouched (the
second conjunct characterizes `applyBounds` axis by axis). -/
theorem step_boundary (s : SimState) (i : Nat)
    (hw : ∀ n ∈ s.nodes, 2 * (n.radius + 10) ≤ s.width ∧ 2 * (n.radius + 10) ≤ s.height)
    (hi : i < s.nodes.length) (hd : s.dragged ≠ some i) :
    inBounds s.width s.height ((updatePhysics s).nodes.getD i defNode) ∧
    (∀ (w hgt : ℚ) (n : Node),
      (n.x < n.radius + 10 →
        (applyBounds w hgt n).x = n.radius + 10 ∧
        (applyBounds w hgt n).vx = n.vx * (-(1/2))) ∧
      (¬ n.x < n.radius + 10 → w - (n.radius + 10) < n.x →
        (applyBounds w hgt n).x = w - (n.radius + 10) ∧
        (applyBounds w hgt n).vx = n.vx * (-(1/2))) ∧
      (¬ n.x < n.radius + 10 → ¬ w - (n.radius + 10) < n.x →
        (applyBounds w hgt n).x = n.x ∧ (applyBounds w hgt n).vx = n.vx) ∧
      (n.y < n.radius + 10 →
        (applyBounds w hgt n).y = n.radius + 10 ∧
        (applyBounds w hgt n).vy = n.vy * (-(1/2))) ∧
      (¬ n.y < n.radius + 10 → hgt - (n.radius + 10) < n.y →
        (applyBounds w hgt n).y = hgt - (n.radius + 10) ∧
        (applyBounds w hgt n).vy = n.vy * (-(1/2))) ∧
      (¬ n.y < n.radius + 10 → ¬ hgt - (n.radius + 10) < n.y →
        (applyBounds w hgt n).y = n.y ∧ (applyBounds w hgt n).vy = n.vy)) := by
  constructor
  · have hg : (updatePhysics s).nodes = physicsNodes s := rfl
    rw [hg, physicsNodes_getD s i hi hd]
    have hmem : s.nodes.getD i defNode ∈ s.nodes := by
      rw [List.getD_eq_getElem _ _ hi]
      exact List.getElem_mem hi
    have hwi := hw _ hmem
    exact applyBounds_inBounds s.width s.height _ hwi.1 hwi.2
  · intro w hgt n
    refine ⟨?_, ?_, ?_, ?_, ?_, ?_⟩
    · intro hc
      unfold applyBounds
      dsimp only
      rw [if_pos hc]
      exact ⟨rfl, rfl⟩
    · intro hc1 hc2
      unfold applyBounds
      dsimp only
      rw [if_neg hc1, if_pos hc2]
      exact ⟨rfl, rfl⟩
    · intro hc1 hc2
      unfold applyBounds
      dsimp only
      rw [if_neg hc1, if_neg hc2]
      exact ⟨rfl, rfl⟩
    · intro hc
      unfold applyBounds
      dsimp only
      rw [if_pos hc]
      exact ⟨rfl, rfl⟩
    · intro hc1 hc2
      unfold applyBounds
      dsimp only
      rw [if_neg hc1, if_pos hc2]
      exact ⟨rfl, rfl⟩
    · intro hc1 hc2
      unfold applyBounds
      dsimp only
      rw [if_neg hc1, if_neg hc2]
      exact ⟨rfl, rfl⟩

/-- Witness for C8. -/
theorem step_boundary_witness :
    inBounds c8State.width c8State.height ((updatePhysics c8State).nodes.getD 0 defNode) ∧
    (∀ (w hgt : ℚ) (n : Node),
      (n.x < n.radius + 10 →
        (applyBounds w hgt n).x = n.radius + 10 ∧
        (applyBounds w hgt n).vx = n.vx * (-(1/2))) ∧
      (¬ n.x < n.radius + 10 → w - (n.radius + 10) < n.x →
        (applyBounds w hgt n).x = w - (n.radius + 10) ∧
        (applyBounds w hgt n).vx = n.vx * (-(1/2))) ∧
      (¬ n.x < n.radius + 10 → ¬ w - (n.radius + 10) < n.x →
        (applyBounds w hgt n).x = n.x ∧ (applyBounds w hgt n).vx = n.vx) ∧
      (n.y < n.radius + 10 →
        (applyBounds w hgt n).y = n.radius + 10 ∧
        (applyBounds w hgt n).vy = n.vy * (-(1/2))) ∧
      (¬ n.y < n.radius + 10 → hgt - (n.radius + 10) < n.y →
        (applyBounds w hgt n).y = hgt - (n.radius + 10) ∧
        (applyBounds w hgt n).vy = n.vy * (-(1/2))) ∧
      (¬ n.y < n.radius + 10 → ¬ hgt - (n.radius + 10) < n.y →
        (applyBounds w hgt n).y = n.y ∧ (applyBounds w hgt n).vy = n.vy)) := by
  refine step_boundary c8State 0 ?_ ?_ ?_
  · intro n hn
    simp only [c8State, List.mem_cons, List.not_mem_nil, or_false] at hn
    rw [hn]
    norm_num [c8State]
  · simp [c8State]
  · simp [c8State]

theorem jadd_none_left (x : JNum) : jadd none x = none := by cases x <;> rfl

theorem jmul_none_left (x : JNum) : jmul none x = none := by cases x <;> rfl

theorem c3_repulsionFrom : jRepulsionFrom 8000 100 c3N c3N = (none, none) := by
  have hdx : jsub (some (100:ℚ)) (some 100) = some 0 := by
    show some ((100:ℚ) - 100) = some 0
    norm_num
  have hsq : jmul (some (0:ℚ)) (some 0) = some 0 := by
    show some ((0:ℚ) * 0) = some 0
    norm_num
  have hds : jadd (some (0:ℚ)) (some 0) = some 0 := by
    show some ((0:ℚ) + 0) = some 0
    norm_num
  have hsqrt : jsqrt (some (0:ℚ)) = some 0 := by
    show (if (0:ℚ) < 0 then none else some (ratSqrt 0)) = some 0
    rw [if_neg (lt_irrefl (0:ℚ)), ratSqrt_val_0]
  have hjlt : jlt (some (0:ℚ)) (jofq (100 * 3)) = true := by
    show decide ((0:ℚ) < 100 * 3) = true
    rw [decide_eq_true_eq]
    norm_num
  have hdiv0 : jdiv (some (0:ℚ)) (some 0) = none := by
    show (if (0:ℚ) = 0 then none else some ((0:ℚ) / 0)) = none
    rw [if_pos rfl]
  simp only [jRepulsionFrom, c3N]
  rw [hdx, hsq, hds, hsqrt, if_pos hjlt, hdiv0]
  simp only [jmul_none_left]

theorem c3_repulsionTotal : jRepulsionTotal 8000 100 [c3N, c3N] 0 = (none, none) := by
  simp only [jRepulsionTotal]
  rw [show List.range ([c3N, c3N] : List JNode).length = [0, 1] from rfl]
  simp only [List.foldl_cons, List.foldl_nil]
  norm_num
  rw [c3_repulsionFrom]
  exact ⟨rfl, rfl⟩

theorem c3_forceOn : jForceOn c3State [c3N, c3N] 0 = (none, none) := by
  simp only [jForceOn]
  rw [show c3State.repulsionStrength = (8000:ℚ) from rfl,
    show c3State.minDistance = (100:ℚ) from rfl, c3_repulsionTotal]
  rw [jadd_none_left, jadd_none_left, jadd_none_left, jadd_none_left]

/-- C3 (evaluation at the failing input): with two distinct nodes at the
exact same point, one physics step writes `NaN` (`none`) into the first
node's position and velocity: the repulsion's `+1` guards only the force
magnitude, while the unit-vector normalization computes `dx / dist = 0 / 0`,
which is `NaN` and propagates through the integration; the clamp comparisons
are false on `NaN` and leave it in place. -/
theorem coincident_nodes_nan :
    ((jUpdatePhysics c3State).nodes.getD 0 jDefNode).x = none ∧
    ((jUpdatePhysics c3State).nodes.getD 0 jDefNode).vx = none := by
  have hint : jIntegrateNode c3State.friction c3N (none, none) =
      ⟨none, none, none, none, some 30⟩ := rfl
  have happ : jApplyBounds c3State.width c3State.height
      (⟨none, none, none, none, some 30⟩ : JNode) = ⟨none, none, none, none, some 30⟩ := rfl
  have hstep0 : jStepIndex c3State [c3N, c3N] 0 =
      [⟨none, none, none, none, some 30⟩, c3N] := by
    simp only [jStepIndex]
    rw [if_neg (show ¬ c3State.dragged = some 0 from fun h => Option.noConfusion h)]
    rw [show ([c3N, c3N] : List JNode).getD 0 jDefNode = c3N from rfl, c3_forceOn, hint, happ]
    rfl
  have hnodes : (jUpdatePhysics c3State).nodes =
      List.foldl (jStepIndex c3State) [c3N, c3N] [0, 1] := by
    show jPhysicsNodes c3State = _
    simp only [jPhysicsNodes]
    rfl
  rw [hnodes, List.foldl_cons, hstep0, List.foldl_cons, List.foldl_nil]
  simp only [jStepIndex]
  rw [if_neg (show ¬ c3State.dragged = some 1 from fun h => Option.noConfusion h)]
  exact ⟨rfl, rfl⟩

theorem repulsionFrom_zero (minD : ℚ) (a b : Node) : repulsionFrom 0 minD a b = (0, 0) := by
  simp only [repulsionFrom]
  split_ifs
  · norm_num
  · rfl

theorem repulsionTotal_zero (minD : ℚ) (nodes : List Node) (i : Nat) :
    repulsionTotal 0 minD nodes i = (0, 0) := by
  unfold repulsionTotal
  generalize List.range nodes.length = l
  induction l with
  | nil => rfl
  | cons j t ih =>
      rw [List.foldl_cons]
      rw [show (if i = j then ((0:ℚ), (0:ℚ))
          else (0, 0) + repulsionFrom 0 minD (nodes.getD i defNode) (nodes.getD j defNode))
          = ((0:ℚ), (0:ℚ)) from by
        split_ifs
        · rfl
        · rw [repulsionFrom_zero]
          simp]
      exact ih

theorem forceOn_center (s : SimState) (hconn : s.connections = [])
    (hrep : s.repulsionStrength = 0) (nodes : List Node) (i : Nat) :
    forceOn s nodes i =
      ((s.centerX - (nodes.getD i defNode).x) * s.centerAttraction,
       (s.centerY - (nodes.getD i defNode).y) * s.centerAttraction) := by
  unfold forceOn
  rw [hconn, hrep, repulsionTotal_zero]
  show ((0:ℚ) + (0:ℚ) + _, (0:ℚ) + (0:ℚ) + _) = _
  norm_num

/-- One simulation step per axis: with the invariant velocity `-(t * u)`,
the new velocity is again a restoring multiple in `[0, 1/10]`, and the
displacement from the center shrinks. -/
theorem axis_contract (cx x v t : ℚ) (ht0 : 0 ≤ t) (ht1 : t ≤ 1/10)
    (hv : v = -(t * (x - cx))) :
    (∃ t' : ℚ, 0 ≤ t' ∧ t' ≤ 1/10 ∧
      (v + (cx - x) * (1/500)) * (17/20) =
        -(t' * ((x + (v + (cx - x) * (1/500)) * (17/20)) - cx))) ∧
    |(x + (v + (cx - x) * (1/500)) * (17/20)) - cx| ≤ |x - cx| := by
  subst hv
  have hv' : (-(t * (x - cx)) + (cx - x) * (1/500)) * (17/20)
      = -(((17/20) * (t + 1/500)) * (x - cx)) := by ring
  have hu' : (x + (-(t * (x - cx)) + (cx - x) * (1/500)) * (17/20)) - cx
      = (1 - (17/20) * (t + 1/500)) * (x - cx) := by ring
  set s1 : ℚ := (17/20) * (t + 1/500) with hs1def
  have hs1a : 17/10000 ≤ s1 := by rw [hs1def]; linarith
  have hs1b : s1 ≤ 867/10000 := by rw [hs1def]; linarith
  have hpos : (0:ℚ) < 1 - s1 := by linarith
  constructor
  · refine ⟨s1 / (1 - s1), div_nonneg (by linarith) (le_of_lt hpos), ?_, ?_⟩
    · rw [div_le_iff₀ hpos]
      linarith
    · rw [hu', hv']
      field_simp
      ring
  · rw [hu', abs_mul, abs_of_nonneg (by linarith : (0:ℚ) ≤ 1 - s1)]
    exact mul_le_of_le_one_left (abs_nonneg _) (by linarith)

/-- The node-level step of the C9 configuration preserves the invariant and
does not increase the squared distance to the center. -/
theorem centerStep_nodeInv (w h : ℚ) (n : Node) (hI : NodeInv w h n) :
    NodeInv w h (applyBounds w h (integrateNode (17/20) n
      ((w/2 - n.x) * (1/500), (h/2 - n.y) * (1/500)))) ∧
    sqDistToCenter (applyBounds w h (integrateNode (17/20) n
      ((w/2 - n.x) * (1/500), (h/2 - n.y) * (1/500)))) (w/2) (h/2) ≤
      sqDistToCenter n (w/2) (h/2) := by
  obtain ⟨hB, ⟨tx, htx0, htx1, hvx⟩, ⟨ty, hty0, hty1, hvy⟩⟩ := hI
  obtain ⟨hb1, hb2, hb3, hb4⟩ := hB
  set n1 := integrateNode (17/20) n ((w/2 - n.x) * (1/500), (h/2 - n.y) * (1/500)) with hn1
  have h1x : n1.x = n.x + (n.vx + (w/2 - n.x) * (1/500)) * (17/20) := by rw [hn1]; rfl
  have h1vx : n1.vx = (n.vx + (w/2 - n.x) * (1/500)) * (17/20) := by rw [hn1]; rfl
  have h1y : n1.y = n.y + (n.vy + (h/2 - n.y) * (1/500)) * (17/20) := by rw [hn1]; rfl
  have h1vy : n1.vy = (n.vy + (h/2 - n.y) * (1/500)) * (17/20) := by rw [hn1]; rfl
  have h1r : n1.radius = n.radius := by rw [hn1]; rfl
  obtain ⟨⟨tx', htx'0, htx'1, hvx'⟩, habsx⟩ := axis_contract (w/2) n.x n.vx tx htx0 htx1 hvx
  obtain ⟨⟨ty', hty'0, hty'1, hvy'⟩, habsy⟩ := axis_contract (h/2) n.y n.vy ty hty0 hty1 hvy
  have hbx : |n.x - w/2| ≤ w/2 - (n.radius + 10) := abs_le.mpr ⟨by linarith, by linarith⟩
  have hby : |n.y - h/2| ≤ h/2 - (n.radius + 10) := abs_le.mpr ⟨by linarith, by linarith⟩
  have hax2 : |n1.x - w/2| ≤ |n.x - w/2| := by rw [h1x]; exact habsx
  have hay2 : |n1.y - h/2| ≤ |n.y - h/2| := by rw [h1y]; exact habsy
  have hBn1 : inBounds w h n1 := by
    obtain ⟨hxa, hxb⟩ := abs_le.mp (le_trans hax2 hbx)
    obtain ⟨hya, hyb⟩ := abs_le.mp (le_trans hay2 hby)
    exact ⟨by rw [h1r]; linarith, by rw [h1r]; linarith,
      by rw [h1r]; linarith, by rw [h1r]; linarith⟩
  have happly : applyBounds w h n1 = n1 := applyBounds_eq_of_inBounds w h n1 hBn1
  rw [happly]
  constructor
  · refine ⟨hBn1, ⟨tx', htx'0, htx'1, ?_⟩, ⟨ty', hty'0, hty'1, ?_⟩⟩
    · rw [h1vx, h1x]
      exact hvx'
    · rw [h1vy, h1y]
      exact hvy'
  · unfold sqDistToCenter
    have hx2 : (n1.x - w/2)^2 ≤ (n.x - w/2)^2 := by
      have hp := pow_le_pow_left₀ (abs_nonneg _) hax2 2
      rwa [sq_abs, sq_abs] at hp
    have hy2 : (n1.y - h/2)^2 ≤ (n.y - h/2)^2 := by
      have hp := pow_le_pow_left₀ (abs_nonneg _) hay2 2
      rwa [sq_abs, sq_abs] at hp
    exact add_le_add hx2 hy2

/-- In the C9 configuration the step acts on each node independently of the
others: node `k` after the pass is the clamp of the center-only
integration of node `k` before the pass. -/
theorem physicsNodes_center_getD (s : SimState) (hconn : s.connections = [])
    (hrep : s.repulsionStrength = 0) (hdrag : s.dragged = none)
    (k : Nat) (hk : k < s.nodes.length) :
    (physicsNodes s).getD k defNode =
      applyBounds s.width s.height
        (integrateNode s.friction (s.nodes.getD k defNode)
          ((s.centerX - (s.nodes.getD k defNode).x) * s.centerAttraction,
           (s.centerY - (s.nodes.getD k defNode).y) * s.centerAttraction)) := by
  rw [physicsNodes_getD s k hk (by rw [hdrag]; exact fun h => Option.noConfusion h)]
  rw [forceOn_center s hconn hrep]
  rw [getD_foldl_stepIndex_not_mem s _ _ k (by simp [List.mem_range])]

theorem goodState_step (s : SimState) (hg : GoodState s) : GoodState (updatePhysics s) := by
  obtain ⟨h1, h2, h3, h4, h5, h6, h7, h8⟩ := hg
  refine ⟨h1, h2, h3, h4, h5, h6, h7, ?_⟩
  intro n hn
  rw [show (updatePhysics s).nodes = physicsNodes s from rfl] at hn
  obtain ⟨k, hk, hkn⟩ := List.mem_iff_getElem.mp hn
  have hklen : k < s.nodes.length := by
    rw [← length_physicsNodes s]
    exact hk
  have hgetD : (physicsNodes s).getD k defNode = n := by
    rw [List.getD_eq_getElem _ _ hk]
    exact hkn
  rw [show (updatePhysics s).width = s.width from rfl,
    show (updatePhysics s).height = s.height from rfl]
  rw [← hgetD, physicsNodes_center_getD s h1 h2 h7 k hklen]
  have hmem : s.nodes.getD k defNode ∈ s.nodes := by
    rw [List.getD_eq_getElem _ _ hklen]
    exact List.getElem_mem hklen
  have hres := centerStep_nodeInv s.width s.height (s.nodes.getD k defNode) (h8 _ hmem)
  rw [h3, h4, h5, h6]
  exact hres.1

theorem goodState_dist_step (s : SimState) (hg : GoodState s) (k : Nat)
    (hk : k < s.nodes.length) :
    sqDistToCenter ((updatePhysics s).nodes.getD k defNode) s.centerX s.centerY ≤
      sqDistToCenter (s.nodes.getD k defNode) s.centerX s.centerY := by
  obtain ⟨h1, h2, h3, h4, h5, h6, h7, h8⟩ := hg
  rw [show (updatePhysics s).nodes = physicsNodes s from rfl,
    physicsNodes_center_getD s h1 h2 h7 k hk]
  have hmem : s.nodes.getD k defNode ∈ s.nodes := by
    rw [List.getD_eq_getElem _ _ hk]
    exact List.getElem_mem hk
  have hres := centerStep_nodeInv s.width s.height (s.nodes.getD k defNode) (h8 _ hmem)
  rw [h3, h4, h5, h6]
  exact hres.2

theorem iterate_fields (s : SimState) (m : Nat) :
    (updatePhysics^[m] s).width = s.width ∧ (updatePhysics^[m] s).height = s.height ∧
    (updatePhysics^[m] s).centerX = s.centerX ∧ (updatePhysics^[m] s).centerY = s.centerY ∧
    (updatePhysics^[m] s).nodes.length = s.nodes.length := by
  induction m with
  | zero => exact ⟨rfl, rfl, rfl, rfl, rfl⟩
  | succ p ih =>
      rw [Function.iterate_succ_apply']
      refine ⟨ih.1, ih.2.1, ih.2.2.1, ih.2.2.2.1, ?_⟩
      rw [show (updatePhysics (updatePhysics^[p] s)).nodes = physicsNodes (updatePhysics^[p] s)
        from rfl, length_physicsNodes]
      exact ih.2.2.2.2

theorem goodState_iterate (s : SimState) (hg : GoodState s) (m : Nat) :
    GoodState (updatePhysics^[m] s) := by
  induction m with
  | zero => exact hg
  | succ p ih =>
      rw [Function.iterate_succ_apply']
      exact goodState_step _ ih

/-- C9: in the scenario with no connections, repulsion strength zero,
center attraction at its (nonzero) default `0.002`, the default friction
`0.85`, centers at half the dimensions, no drag, and every node starting at
rest within the canvas bounds, every node's distance to the canvas center is
non-increasing from each step to the next, for any number of steps. -/
theorem center_distance_monotone (s : SimState)
    (hconn : s.connections = []) (hrep : s.repulsionStrength = 0)
    (hfric : s.friction = 17/20) (hcen : s.centerAttraction = 1/500)
    (hcx : s.centerX = s.width / 2) (hcy : s.centerY = s.height / 2)
    (hdrag : s.dragged = none)
    (hinit : ∀ n ∈ s.nodes, n.vx = 0 ∧ n.vy = 0 ∧ inBounds s.width s.height n)
    (m k : Nat) (hk : k < s.nodes.length) :
    Real.sqrt ((sqDistToCenter ((updatePhysics^[m + 1] s).nodes.getD k defNode)
        s.centerX s.centerY : ℚ) : ℝ) ≤
      Real.sqrt ((sqDistToCenter ((updatePhysics^[m] s).nodes.getD k defNode)
        s.centerX s.centerY : ℚ) : ℝ) := by
  have hg : GoodState s := by
    refine ⟨hconn, hrep, hfric, hcen, hcx, hcy, hdrag, ?_⟩
    intro n hn
    obtain ⟨hv1, hv2, hB⟩ := hinit n hn
    exact ⟨hB, ⟨0, le_refl 0, by norm_num, by rw [hv1]; ring⟩,
      ⟨0, le_refl 0, by norm_num, by rw [hv2]; ring⟩⟩
  have hgm := goodState_iterate s hg m
  have hfields := iterate_fields s m
  have hklen : k < (updatePhysics^[m] s).nodes.length := by
    rw [hfields.2.2.2.2]
    exact hk
  have hstep := goodState_dist_step (updatePhysics^[m] s) hgm k hklen
  rw [hfields.2.2.1, hfields.2.2.2.1] at hstep
  rw [Function.iterate_succ_apply']
  exact Real.sqrt_le_sqrt (by exact_mod_cast hstep)

/-- Witness for C9 at the first step of the concrete state. -/
theorem center_distance_monotone_witness :
    Real.sqrt ((sqDistToCenter ((updatePhysics^[1] c9State).nodes.getD 0 defNode)
        c9State.centerX c9State.centerY : ℚ) : ℝ) ≤
      Real.sqrt ((sqDistToCenter ((updatePhysics^[0] c9State).nodes.getD 0 defNode)
        c9State.centerX c9State.centerY : ℚ) : ℝ) := by
  refine center_distance_monotone c9State rfl rfl rfl rfl ?_ ?_ rfl ?_ 0 0 ?_
  · show (400 : ℚ) = 800 / 2
    norm_num
  · show (300 : ℚ) = 600 / 2
    norm_num
  · intro n hn
    simp only [c9State, List.mem_cons, List.not_mem_nil, or_false] at hn
    rw [hn]
    refine ⟨rfl, rfl, ?_, ?_, ?_, ?_⟩ <;> norm_num [c9State]
  · simp [c9State]
